import Mathlib

/-!
Shallow embedding of `xltable/expression.py`: an expression model for building
spreadsheet formulas that reference table regions by label.  Pure functions of
the source are translated to Lean functions; the external layout collaborators
(workbook / worksheet / table) are modelled as structures of function fields
following the interface contract of spec section 6 (they are out of scope of
the repository itself).  Fallible lookups return `Option`; a `none` anywhere
models a Python exception propagating out of `resolve`.

Modelling conventions:
* Python `int` is `Int`; Python `float` (only produced here by `operator.truediv`)
  is modelled as an exact rational `Rat`.
* Python operator semantics (`operator.add` etc.) are modelled on the scalar
  value kinds the library documents (string, boolean, number, spec section 3);
  exotic cases such as sequence repetition `"x" * 3` are out of scope and map
  to `none` (a type error).
* The optional `value=` keyword of `Expression.__init__` is modelled where the
  library itself uses it: `ConstExpr` / `ArrayConstant` store their payload,
  `ArrayExpression` stores the wrapped expression (value delegation), and
  `BinOp` stores the eagerly computed value.
-/

namespace Xltable

/-- Scalar Python values handled by the library: strings, booleans and
numbers (ints, and floats modelled as exact rationals). -/
inductive Val where
  | int (n : Int)
  | bool (b : Bool)
  | str (s : String)
  | rat (q : Rat)

/-- A value stored in an expression's `value` slot: either a scalar or a 2-D
array (as stored by `ArrayConstant`). -/
inductive ExVal where
  | scalar (v : Val)
  | array (a : List (List Val))

/-- Numeric view of a scalar: Python treats booleans as 0/1 in arithmetic. -/
def Val.asInt : Val → Option Int
  | .int n => some n
  | .bool b => some (if b then 1 else 0)
  | _ => none

/-- Numeric view including floats (modelled as rationals). -/
def Val.asNum : Val → Option Rat
  | .int n => some (n : Rat)
  | .bool b => some (if b then 1 else 0)
  | .rat q => some q
  | .str _ => none

/-- Python binary arithmetic: int op int stays int (bools coerce to int),
any float makes the result float, strings are a type error here. -/
def pyArith (fi : Int → Int → Int) (fr : Rat → Rat → Rat) (a b : Val) : Option Val :=
  match a.asInt, b.asInt with
  | some m, some n => some (.int (fi m n))
  | _, _ =>
    match a.asNum, b.asNum with
    | some x, some y => some (.rat (fr x y))
    | _, _ => none

/-- `operator.add`: numeric addition, or string concatenation. -/
def pyAdd (a b : Val) : Option Val :=
  match a, b with
  | .str s, .str t => some (.str (s ++ t))
  | _, _ => pyArith (· + ·) (· + ·) a b

/-- `operator.sub`. -/
def pySub (a b : Val) : Option Val := pyArith (· - ·) (· - ·) a b

/-- `operator.mul` (numeric cases). -/
def pyMul (a b : Val) : Option Val := pyArith (· * ·) (· * ·) a b

/-- `operator.truediv`: always produces a float (here an exact rational);
division by zero is an error. -/
def pyDiv (a b : Val) : Option Val :=
  match a.asNum, b.asNum with
  | some x, some y => if y = 0 then none else some (.rat (x / y))
  | _, _ => none

/-- Python comparisons: numbers compare numerically, strings lexicographically,
mixed string/number comparison is a type error. -/
def pyCompare (fs : String → String → Bool) (fq : Rat → Rat → Bool) (a b : Val) : Option Val :=
  match a, b with
  | .str s, .str t => some (.bool (fs s t))
  | _, _ =>
    match a.asNum, b.asNum with
    | some x, some y => some (.bool (fq x y))
    | _, _ => none

/-- `operator.lt`. -/
def pyLt (a b : Val) : Option Val := pyCompare (fun s t => decide (s < t)) (fun x y => decide (x < y)) a b

/-- `operator.le`. -/
def pyLe (a b : Val) : Option Val := pyCompare (fun s t => decide (s ≤ t)) (fun x y => decide (x ≤ y)) a b

/-- `operator.gt`. -/
def pyGt (a b : Val) : Option Val := pyCompare (fun s t => decide (t < s)) (fun x y => decide (y < x)) a b

/-- `operator.ge`. -/
def pyGe (a b : Val) : Option Val := pyCompare (fun s t => decide (t ≤ s)) (fun x y => decide (y ≤ x)) a b

/-- `operator.eq`: never a type error; numbers compare numerically, a number
never equals a string. -/
def pyEq (a b : Val) : Option Val :=
  match a, b with
  | .str s, .str t => some (.bool (decide (s = t)))
  | .str _, _ => some (.bool false)
  | _, .str _ => some (.bool false)
  | _, _ =>
    match a.asNum, b.asNum with
    | some x, some y => some (.bool (decide (x = y)))
    | _, _ => none

/-- `operator.ne`. -/
def pyNeq (a b : Val) : Option Val :=
  match pyEq a b with
  | some (.bool r) => some (.bool (!r))
  | _ => none

/-- `operator.and_`: boolean conjunction on bools, bitwise and on ints,
a type error on floats/strings. -/
def pyAnd (a b : Val) : Option Val :=
  match a, b with
  | .bool x, .bool y => some (.bool (x && y))
  | _, _ =>
    match a.asInt, b.asInt with
    | some m, some n => some (.int (Int.land m n))
    | _, _ => none

/-- `operator.or_`. -/
def pyOr (a b : Val) : Option Val :=
  match a, b with
  | .bool x, .bool y => some (.bool (x || y))
  | _, _ =>
    match a.asInt, b.asInt with
    | some m, some n => some (.int (Int.lor m n))
    | _, _ => none

/-- Lift a scalar operator to stored values; the Python sequence semantics on
arrays (e.g. list concatenation) are outside the modelled scalar scope. -/
def liftScalar (f : Val → Val → Option Val) : ExVal → ExVal → Option ExVal
  | .scalar a, .scalar b => (f a b).map .scalar
  | _, _ => none

/-- `BinOp.__operators`: the operator-symbol dictionary.  Note it maps `"!="`
(and `"|"`), while the overloads produce `"<>"`; a missing key is a
`KeyError`, modelled as `none`. -/
def operators (op : String) : Option (ExVal → ExVal → Option ExVal) :=
  match op with
  | "+" => some (liftScalar pyAdd)
  | "-" => some (liftScalar pySub)
  | "*" => some (liftScalar pyMul)
  | "/" => some (liftScalar pyDiv)
  | ">" => some (liftScalar pyGt)
  | "<" => some (liftScalar pyLt)
  | "<=" => some (liftScalar pyLe)
  | ">=" => some (liftScalar pyGe)
  | "!=" => some (liftScalar pyNeq)
  | "=" => some (liftScalar pyEq)
  | "&" => some (liftScalar pyAnd)
  | "|" => some (liftScalar pyOr)
  | _ => none

mutual
/-- The expression tree: one constructor per concrete `Expression` subclass.
Field order follows each Python constructor's parameters; optional fixed
flags of `Cell` are `Option Bool` because their defaults are decided at
resolve time. `binOp` carries the value cached by `BinOp.__init__` (see
`BinOp.mk`). -/
inductive Expr where
  | cell (col : String) (row : Option String) (row_offset : Int)
      (table : Option String) (col_fixed row_fixed : Option Bool)
  | column (col : String) (include_header : Bool) (table : Option String)
      (col_fixed row_fixed : Bool)
  | index (include_header : Bool) (table : Option String)
      (col_fixed row_fixed : Bool)
  | range (left_col right_col : String) (top_row : Option String)
      (bottom_row : BottomRow) (include_header : Bool) (table : Option String)
      (col_fixed row_fixed : Bool)
  | formula (name : String) (args : List FArg)
  | arrayExpression (expr : Expr)
  | arrayConstant (array : List (List Val))
  | binOp (lhs rhs : Expr) (op : String) (cached : Option ExVal)
  | constExpr (v : Val)

/-- An argument passed to `Formula`: Python allows `None`, an `Expression`,
or a raw scalar (coerced by `_make_expr`). -/
inductive FArg where
  | noneA
  | exprA (e : Expr)
  | rawA (v : Val)

/-- `Range`'s `bottom_row` parameter distinguishes `None`, `False` and a
row label (`... is False` identity test in the source). -/
inductive BottomRow where
  | bnone
  | bfalse
  | blabel (l : String)
end

/-- `Expression.has_value`: true iff a value was stored, recursing through a
stored child expression (`ArrayExpression` stores its wrapped expression). -/
def Expr.has_value : Expr → Bool
  | .constExpr _ => true
  | .arrayConstant _ => true
  | .arrayExpression e => e.has_value
  | .binOp _ _ _ cached => cached.isSome
  | _ => false

/-- `Expression.value` getter: the stored value, recursing through a stored
child expression, defaulting to 0 when never set. -/
def Expr.value : Expr → ExVal
  | .constExpr v => .scalar v
  | .arrayConstant a => .array a
  | .arrayExpression e => e.value
  | .binOp _ _ _ (some v) => v
  | _ => .scalar (.int 0)

/-- `BinOp.__init__`: when both operands have a value the operator symbol is
looked up in `operators` (`KeyError` = `none`) and applied (type errors =
`none`); otherwise the node is built with no cached value. -/
def BinOp.mk (lhs rhs : Expr) (op : String) : Option Expr :=
  if lhs.has_value && rhs.has_value then
    match operators op with
    | none => none
    | some f =>
      match f lhs.value rhs.value with
      | none => none
      | some v => some (.binOp lhs rhs op (some v))
  else
    some (.binOp lhs rhs op none)

/-- `Expression.__add__`. -/
def Expr.add (a b : Expr) : Option Expr := BinOp.mk a b "+"

/-- `Expression.__sub__`. -/
def Expr.sub (a b : Expr) : Option Expr := BinOp.mk a b "-"

/-- `Expression.__mul__`. -/
def Expr.mul (a b : Expr) : Option Expr := BinOp.mk a b "*"

/-- `Expression.__truediv__`. -/
def Expr.div (a b : Expr) : Option Expr := BinOp.mk a b "/"

/-- `Expression.__lt__`. -/
def Expr.lt (a b : Expr) : Option Expr := BinOp.mk a b "<"

/-- `Expression.__le__`. -/
def Expr.le (a b : Expr) : Option Expr := BinOp.mk a b "<="

/-- `Expression.__eq__`: spreadsheet equality symbol `=`. -/
def Expr.eq (a b : Expr) : Option Expr := BinOp.mk a b "="

/-- `Expression.__ne__`: spreadsheet inequality symbol `<>`. -/
def Expr.neq (a b : Expr) : Option Expr := BinOp.mk a b "<>"

/-- `Expression.__gt__`. -/
def Expr.gt (a b : Expr) : Option Expr := BinOp.mk a b ">"

/-- `Expression.__ge__`. -/
def Expr.ge (a b : Expr) : Option Expr := BinOp.mk a b ">="

/-- `Expression.__and__`. -/
def Expr.band (a b : Expr) : Option Expr := BinOp.mk a b "&"

/-- External layout collaborator (spec section 6): the table owning the
label-to-offset mappings.  Label lookups may fail. -/
structure Table where
  name : String
  get_column_offset : String → Option Int
  get_row_offset : String → Option Int
  get_index_offset : Int
  height : Int
  header_height : Int

/-- External layout collaborator: a worksheet placing tables at zero-based
top-left positions. -/
structure Worksheet where
  name : String
  get_table_pos : String → Option (Int × Int)

/-- External layout collaborator: the workbook resolving a (possibly absent
or sheet-qualified) table name to its table and worksheet. -/
structure Workbook where
  get_table : Option String → Option (Table × Worksheet)

/-- Column letters of the `_to_addr` while loop in bijective base 26:
`colLetters 1 = "A"`, `colLetters 26 = "Z"`, `colLetters 27 = "AA"`,
`colLetters 0 = ""` (the loop body never runs). -/
def colLetters : Nat → String
  | 0 => ""
  | n + 1 => colLetters (n / 26) ++ String.singleton (Char.ofNat (65 + n % 26))
decreasing_by exact Nat.lt_succ_of_le (Nat.div_le_self n 26)

/-- `_to_addr`: converts a zero-based coordinate to an excel address, with
optional `$` fixing and optional quoted sheet qualifier (Python truthiness:
`None` and the empty string both mean no qualifier). -/
def to_addr (worksheet : Option String) (row col : Int)
    (row_fixed col_fixed : Bool) : String :=
  let addr := colLetters (col + 1).toNat
  let qualifier :=
    match worksheet with
    | some w => if w = "" then "" else "\x27" ++ w ++ "\x27!"
    | none => ""
  let col_modifier := if col_fixed then "$" else ""
  let row_modifier := if row_fixed then "$" else ""
  qualifier ++ col_modifier ++ addr ++ row_modifier ++ toString (row + 1)

/-- `Expression._strip`, i.e. `re.sub("^\((.*)\)$", r"\1", x)`.  The regex
matches when the string starts with `(` and ends with `)` (`.` does not match
a newline, and `$` also matches just before one trailing newline), and the
substitution drops that first and last parenthesis -- whether or not they
match each other. -/
def pstrip (x : String) : String :=
  if x.data.head? = some '(' then
    let rest := x.data.tail
    let mid1 := rest.dropLast
    if rest.getLast? = some ')' && !(mid1.contains '\n') then
      String.mk mid1
    else
      let mid2 := mid1.dropLast
      if rest.getLast? = some '\n' && mid1.getLast? = some ')' &&
          !(mid2.contains '\n') then
        String.mk (mid2 ++ ['\n'])
      else x
  else x

/-- Characters removed by Python `str.strip("{}")`. -/
def isBrace (c : Char) : Bool := c = '\x7b' || c = '\x7d'

/-- Python `s.strip("{}")` on the character list: drop brace characters from
both ends. -/
def stripBracesL (l : List Char) : List Char :=
  ((l.dropWhile isBrace).reverse.dropWhile isBrace).reverse

/-- Python `s.strip("{}")`. -/
def stripBraces (s : String) : String := String.mk (stripBracesL s.data)

/-- `ConstExpr.resolve` on the stored scalar: strings are quoted, booleans
become `TRUE`/`FALSE`, numbers use their plain text form (`str(value)`). -/
def constResolve : Val → String
  | .str s => "\x22" ++ s ++ "\x22"
  | .bool b => if b then "TRUE" else "FALSE"
  | .int n => toString n
  | .rat q => toString q

/-- Python `str` of a scalar, used by `ArrayConstant.resolve` (`map(str, row)`):
no quoting of strings, booleans render as `True`/`False`. -/
def pyStr : Val → String
  | .str s => s
  | .bool b => if b then "True" else "False"
  | .int n => toString n
  | .rat q => toString q

mutual
/-- `resolve(workbook, row, col)` of each node type, bottoming out at the
layout collaborators; `none` models a propagating lookup exception. -/
def Expr.resolve (wb : Workbook) (row col : Int) : Expr → Option String
  | .cell c orow roff tbl cf rf => do
    let (table, worksheet) ← wb.get_table tbl
    let (top, left) ← worksheet.get_table_pos table.name
    let col_offset ← table.get_column_offset c
    match orow with
    | some rl => do
      let r ← table.get_row_offset rl
      pure (to_addr (some worksheet.name) (top + r + roff) (left + col_offset)
        (rf.getD true) (cf.getD true))
    | none =>
      pure (to_addr (some worksheet.name) (top + row + roff) (left + col_offset)
        (rf.getD false) (cf.getD false))
  | .column c inc tbl cf rf => do
    let (table, worksheet) ← wb.get_table tbl
    let (top, left) ← worksheet.get_table_pos table.name
    let col_offset ← table.get_column_offset c
    let row_offset := if inc then 0 else table.header_height
    pure ("\x27" ++ worksheet.name ++ "\x27!" ++
      to_addr none (top + row_offset) (left + col_offset) rf cf ++ ":" ++
      to_addr none (top + table.height - 1) (left + col_offset) rf cf)
  | .index inc tbl cf rf => do
    let (table, worksheet) ← wb.get_table tbl
    let (top, left) ← worksheet.get_table_pos table.name
    let col_offset := table.get_index_offset
    let row_offset := if inc then 0 else table.header_height
    pure ("\x27" ++ worksheet.name ++ "\x27!" ++
      to_addr none (top + row_offset) (left + col_offset) rf cf ++ ":" ++
      to_addr none (top + table.height - 1) (left + col_offset) rf cf)
  | .range lc rc otop obot inc tbl cf rf => do
    let (table, worksheet) ← wb.get_table tbl
    let (top, left) ← worksheet.get_table_pos table.name
    let left_col_offset ← table.get_column_offset lc
    let right_col_offset ← table.get_column_offset rc
    let top_row_offset ←
      match otop with
      | none => pure (if inc then 0 else table.header_height)
      | some l => table.get_row_offset l
    let bottom_row_offset ←
      match obot with
      | .bnone => pure (table.height - 1)
      | .bfalse => pure top_row_offset
      | .blabel l => table.get_row_offset l
    pure ("\x27" ++ worksheet.name ++ "\x27!" ++
      to_addr none (top + top_row_offset) (left + left_col_offset) rf cf ++ ":" ++
      to_addr none (top + bottom_row_offset) (left + right_col_offset) rf cf)
  | .formula nm args => do
    let ss ← resolveArgs wb row col args
    pure (nm ++ "(" ++ String.intercalate "," ss ++ ")")
  | .arrayExpression e => e.resolve wb row col
  | .arrayConstant arr =>
    some ("\x7b" ++
      String.intercalate ";" (arr.map (fun r => String.intercalate "," (r.map pyStr))) ++
      "\x7d")
  | .binOp lhs rhs op _ => do
    let ls ← lhs.resolve wb row col
    let rs ← rhs.resolve wb row col
    pure ("(" ++ ls ++ op ++ rs ++ ")")
  | .constExpr v => some (constResolve v)

/-- The argument list of `Formula.resolve`: each argument through `to_arg`,
failures propagating. -/
def resolveArgs (wb : Workbook) (row col : Int) : List FArg → Option (List String)
  | [] => some []
  | a :: rest => do
    let s ← resolveArg wb row col a
    let ss ← resolveArgs wb row col rest
    pure (s :: ss)

/-- `Formula.resolve`'s `to_arg`: `None` becomes the empty string, otherwise
`_make_expr` coerces a raw scalar to a `ConstExpr` and the resolved text is
stripped of one outer parenthesis layer. -/
def resolveArg (wb : Workbook) (row col : Int) : FArg → Option String
  | .noneA => some ""
  | .exprA e => (e.resolve wb row col).map pstrip
  | .rawA v => some (pstrip (constResolve v))
end

/-- `get_formula(workbook, row, col)`: the base implementation prepends `=`
to the stripped resolution; `ArrayExpression` overrides it, wrapping the
inner formula text (stripped of any existing braces) in braces. -/
def Expr.get_formula (wb : Workbook) (row col : Int) : Expr → Option String
  | .arrayExpression e =>
    (e.get_formula wb row col).map (fun s => "\x7b" ++ stripBraces s ++ "\x7d")
  | e => (e.resolve wb row col).map (fun s => "=" ++ pstrip s)

/-- Concrete layout fixture (the end-to-end scenario of spec section 8): a
table `t` of height 3 with one header row, column `x` at offset 0 and a row
labelled `r1` at offset 1. -/
def table1 : Table :=
  { name := "t"
    get_column_offset := fun l => if l = "x" then some 0 else none
    get_row_offset := fun l => if l = "r1" then some 1 else none
    get_index_offset := 0
    height := 3
    header_height := 1 }

/-- Concrete fixture: `Sheet1` hosting `table1` at its top-left corner. -/
def sheet1 : Worksheet :=
  { name := "Sheet1"
    get_table_pos := fun n => if n = "t" then some (0, 0) else none }

/-- Concrete fixture: a workbook on which every table reference resolves to
`table1` on `sheet1`. -/
def wb1 : Workbook := { get_table := fun _ => some (table1, sheet1) }

/-- Decoder of a column-letter string as bijective base 26 with A=1 and no
zero digit (the round-trip reading of claim C8). -/
def decodeCol (s : String) : Nat :=
  s.data.foldl (fun a c => 26 * a + (c.toNat - 64)) 0

/-- The per-argument rendering contract of claim C9: a `None` argument is the
empty string, any other argument is its resolved text with one outer
parenthesis layer stripped. -/
def argSpec (wb : Workbook) (row col : Int) : FArg → String → Prop
  | .noneA, s => s = ""
  | .exprA e, s => (e.resolve wb row col).map pstrip = some s
  | .rawA v, s => s = pstrip (constResolve v)

/-- Helper for `enclosedInSinglePair`: scanning the interior characters, the
parenthesis depth (starting at 1 for the opening parenthesis) stays positive,
i.e. the opening parenthesis is not closed before the end. -/
def depthStaysPositive : Int → List Char → Bool
  | _, [] => true
  | d, c :: cs =>
    let d2 := if c = '(' then d + 1 else if c = ')' then d - 1 else d
    decide (0 < d2) && depthStaysPositive d2 cs

/-- Claim C6's notion, stated from the spec's words rather than the source:
the string is entirely enclosed in a single outer parenthesis pair, i.e. it
starts with `(`, ends with `)`, and those two parentheses match each other. -/
def enclosedInSinglePair (s : String) : Bool :=
  match s.data with
  | '(' :: rest => rest.getLast? = some ')' && depthStaysPositive 1 rest.dropLast
  | _ => false

/-! ## Helper lemmas -/

theorem dropWhile_head_false (p : Char → Bool) :
    ∀ (l : List Char) (c : Char), (l.dropWhile p).head? = some c → p c = false := by
  intro l
  induction l with
  | nil => intro c h; simp [List.dropWhile] at h
  | cons a as ih =>
    intro c h
    rw [List.dropWhile_cons] at h
    by_cases hp : p a
    · exact ih c (by simpa [hp] using h)
    · simp [hp] at h
      subst h
      simpa using hp

theorem dropWhile_getLast?_of_ne_nil (p : Char → Bool) :
    ∀ l : List Char, l.dropWhile p ≠ [] → (l.dropWhile p).getLast? = l.getLast? := by
  intro l
  induction l with
  | nil => intro h; simp [List.dropWhile] at h
  | cons a as ih =>
    intro h
    rw [List.dropWhile_cons]
    by_cases hp : p a
    · rw [List.dropWhile_cons, if_pos hp] at h
      have hne : as ≠ [] := by
        intro h0; apply h; simp [h0, List.dropWhile]
      rw [if_pos hp, ih h]
      cases as with
      | nil => exact absurd rfl hne
      | cons b bs => rw [List.getLast?_cons_cons]
    · rw [if_neg hp]

theorem dropWhile_eq_self_of_head (p : Char → Bool) (l : List Char)
    (h : ∀ c, l.head? = some c → p c = false) : l.dropWhile p = l := by
  cases l with
  | nil => rfl
  | cons a as => rw [List.dropWhile_cons, if_neg (by simp [h a rfl])]

theorem stripBracesL_getLast (l : List Char) (c : Char)
    (h : (stripBracesL l).getLast? = some c) : isBrace c = false := by
  unfold stripBracesL at h
  rw [List.getLast?_reverse] at h
  exact dropWhile_head_false isBrace _ c h

theorem stripBracesL_head (l : List Char) (c : Char)
    (h : (stripBracesL l).head? = some c) : isBrace c = false := by
  unfold stripBracesL at h
  rw [List.head?_reverse] at h
  have hne : (l.dropWhile isBrace).reverse.dropWhile isBrace ≠ [] := by
    intro h0; rw [h0] at h; simp at h
  rw [dropWhile_getLast?_of_ne_nil isBrace _ hne, List.getLast?_reverse] at h
  exact dropWhile_head_false isBrace _ c h

theorem stripBracesL_cons_brace (c : Char) (l : List Char) (h : isBrace c = true) :
    stripBracesL (c :: l) = stripBracesL l := by
  unfold stripBracesL
  rw [List.dropWhile_cons, if_pos h]

theorem stripBracesL_concat_brace (l : List Char) (c : Char) (h : isBrace c = true) :
    stripBracesL (l ++ [c]) = stripBracesL l := by
  unfold stripBracesL
  rw [List.dropWhile_append]
  by_cases h0 : (l.dropWhile isBrace).isEmpty
  · rw [if_pos h0]
    have h1 : ([c].dropWhile isBrace) = [] := by simp [List.dropWhile, h]
    have h2 : l.dropWhile isBrace = [] := by simpa [List.isEmpty_iff] using h0
    rw [h1, h2]
  · rw [if_neg h0]
    rw [List.reverse_append]
    simp only [List.reverse_cons, List.reverse_nil, List.nil_append, List.singleton_append]
    rw [List.dropWhile_cons, if_pos h]

theorem dropWhile_stripBracesL (l : List Char) :
    (stripBracesL l).dropWhile isBrace = stripBracesL l :=
  dropWhile_eq_self_of_head _ _ (fun c hc => stripBracesL_head l c hc)

theorem stripBracesL_idem (l : List Char) :
    stripBracesL (stripBracesL l) = stripBracesL l := by
  show (((stripBracesL l).dropWhile isBrace).reverse.dropWhile isBrace).reverse =
    stripBracesL l
  rw [dropWhile_stripBracesL l]
  rw [dropWhile_eq_self_of_head isBrace _
    (fun c hc => stripBracesL_getLast l c (by rwa [List.head?_reverse] at hc))]
  rw [List.reverse_reverse]

theorem stripBraces_wrap (s : String) :
    stripBraces ("\x7b" ++ s ++ "\x7d") = stripBraces s := by
  have hd : ("\x7b" ++ s ++ "\x7d").data = '\x7b' :: (s.data ++ ['\x7d']) := by
    simp [String.data_append]
  unfold stripBraces
  rw [hd, stripBracesL_cons_brace _ _ (by decide),
    stripBracesL_concat_brace _ _ (by decide)]

theorem stripBraces_idem (s : String) :
    stripBraces (stripBraces s) = stripBraces s := by
  show String.mk (stripBracesL (stripBracesL s.data)) = String.mk (stripBracesL s.data)
  rw [stripBracesL_idem]

/-! ## Claim theorems -/

/-- C1: the claim fails on the inequality operator: `__ne__` constructs a
`BinOp` with symbol `<>`, but `BinOp.__operators` only maps `!=`, so when both
operands have values the eager value computation raises `KeyError` (here
`none`) instead of succeeding.  For the other operator symbols construction
does succeed with the matching operator applied, e.g.
`(ConstExpr(2) + ConstExpr(3)).value == 5`. -/
theorem binop_ne_value_keyerror :
    Expr.neq (.constExpr (.int 2)) (.constExpr (.int 3)) = none ∧
    operators "<>" = none ∧
    (Expr.add (.constExpr (.int 2)) (.constExpr (.int 3))).map Expr.value =
      some (.scalar (.int 5)) ∧
    (Expr.add (.constExpr (.int 2)) (.constExpr (.int 3))).map Expr.has_value =
      some true ∧
    (Expr.lt (.constExpr (.int 2)) (.constExpr (.int 3))).map Expr.value =
      some (.scalar (.bool true)) ∧
    (Expr.div (.constExpr (.int 2)) (.constExpr (.int 3))).map Expr.value =
      some (.scalar (.rat (2 / 3))) ∧
    (Expr.band (.constExpr (.int 2)) (.constExpr (.int 3))).map Expr.value =
      some (.scalar (.int 2)) :=
  ⟨rfl, rfl, rfl, rfl, rfl, by norm_num [Expr.div, BinOp.mk, operators, liftScalar,
    pyDiv, Val.asNum, Expr.value, Expr.has_value], rfl⟩

/-- C2 counterexample: an `ArrayExpression` root resolves successfully but its
`get_formula` result starts with a brace, not `=`. -/
theorem get_formula_array_counterexample :
    Expr.get_formula wb1 0 0 (.arrayExpression (.constExpr (.int 1))) =
      some "\x7b=1\x7d" ∧
    ("\x7b=1\x7d" : String).data.head? ≠ some '=' := by
  constructor
  · simp [Expr.get_formula, Expr.resolve, constResolve, pstrip, stripBraces,
      stripBracesL, isBrace]
    rfl
  · decide

/-- C2 amended: on success `get_formula` returns a string whose first
character is `=` for every root node type except `ArrayExpression`, whose
overriding `get_formula` produces a brace-wrapped array formula instead. -/
theorem get_formula_first_char (wb : Workbook) (row col : Int) (e : Expr)
    (s : String) (h : Expr.get_formula wb row col e = some s) :
    (match e with
     | .arrayExpression _ => s.data.head? = some '\x7b'
     | _ => s.data.head? = some '=') := by
  cases e <;>
    simp only [Expr.get_formula, Option.map_eq_some'] at h <;>
    obtain ⟨t, _, rfl⟩ := h <;>
    simp [String.data_append]

/-- C2 witness: a concrete non-array root whose formula starts with `=`. -/
theorem get_formula_first_char_w : ("=1" : String).data.head? = some '=' := by
  have h1 : Expr.get_formula wb1 0 0 (.constExpr (.int 1)) = some "=1" := by
    simp [Expr.get_formula, Expr.resolve, constResolve, pstrip]
    rfl
  exact get_formula_first_char wb1 0 0 (.constExpr (.int 1)) "=1" h1

/-- C3: `Cell.resolve` addresses row `top + r + row_offset` and column
`left + column offset`, where `r` is the mapped offset of an explicit row
label and the ambient `row` argument otherwise, and both fixed flags default
to whether a row label was given unless explicitly set. -/
theorem cell_resolve_spec (wb : Workbook) (row col : Int) (tname : Option String)
    (tb : Table) (ws : Worksheet) (top left : Int) (clabel : String) (co : Int)
    (orow : Option String) (roff : Int) (cf rf : Option Bool) (r : Int)
    (h1 : wb.get_table tname = some (tb, ws))
    (h2 : ws.get_table_pos tb.name = some (top, left))
    (h3 : tb.get_column_offset clabel = some co)
    (h4 : (match orow with
           | none => some row
           | some l => tb.get_row_offset l) = some r) :
    Expr.resolve wb row col (.cell clabel orow roff tname cf rf) =
      some (to_addr (some ws.name) (top + r + roff) (left + co)
        (rf.getD orow.isSome) (cf.getD orow.isSome)) := by
  cases orow with
  | none =>
    simp only [Option.some.injEq] at h4
    subst h4
    simp [Expr.resolve, h1, h2, h3]
  | some l =>
    simp only at h4
    simp [Expr.resolve, h1, h2, h3, h4]

/-- C3 witness: a labelled cell in the concrete fixture resolves to a fully
fixed address. -/
theorem cell_resolve_spec_w :
    Expr.resolve wb1 0 0 (.cell "x" (some "r1") 0 none none none) =
      some "\x27Sheet1\x27!$A$2" := by
  rw [cell_resolve_spec wb1 0 0 none table1 sheet1 0 0 "x" 0 (some "r1") 0
    none none 1 rfl rfl rfl rfl]
  simp [to_addr, colLetters]
  rfl

/-- C4: `Column.resolve` (and `Index.resolve`, using the index-column offset)
produces a single sheet-qualified one-column range whose top row is the table
top plus (0 if the header is included, else the header height) and whose
bottom row is the table top plus `height - 1`; in the concrete fixture
`Column("x")` resolves to `'Sheet1'!$A$2:$A$3`, and to `'Sheet1'!$A$1:$A$3`
with `include_header=True`. -/
theorem column_index_resolve_spec :
    (∀ (wb : Workbook) (row col : Int) (tname : Option String) (tb : Table)
        (ws : Worksheet) (top left : Int) (clabel : String) (co : Int)
        (inc cf rf : Bool),
      wb.get_table tname = some (tb, ws) →
      ws.get_table_pos tb.name = some (top, left) →
      tb.get_column_offset clabel = some co →
      Expr.resolve wb row col (.column clabel inc tname cf rf) =
        some ("\x27" ++ ws.name ++ "\x27!" ++
          to_addr none (top + (if inc then 0 else tb.header_height)) (left + co) rf cf ++
          ":" ++ to_addr none (top + tb.height - 1) (left + co) rf cf)) ∧
    (∀ (wb : Workbook) (row col : Int) (tname : Option String) (tb : Table)
        (ws : Worksheet) (top left : Int) (inc cf rf : Bool),
      wb.get_table tname = some (tb, ws) →
      ws.get_table_pos tb.name = some (top, left) →
      Expr.resolve wb row col (.index inc tname cf rf) =
        some ("\x27" ++ ws.name ++ "\x27!" ++
          to_addr none (top + (if inc then 0 else tb.header_height))
            (left + tb.get_index_offset) rf cf ++
          ":" ++ to_addr none (top + tb.height - 1) (left + tb.get_index_offset) rf cf)) ∧
    Expr.resolve wb1 0 0 (.column "x" false none true true) =
      some "\x27Sheet1\x27!$A$2:$A$3" ∧
    Expr.resolve wb1 0 0 (.column "x" true none true true) =
      some "\x27Sheet1\x27!$A$1:$A$3" := by
  refine ⟨?_, ?_, ?_, ?_⟩
  · intro wb row col tname tb ws top left clabel co inc cf rf h1 h2 h3
    simp [Expr.resolve, h1, h2, h3]
  · intro wb row col tname tb ws top left inc cf rf h1 h2
    simp [Expr.resolve, h1, h2]
  · simp [Expr.resolve, wb1, table1, sheet1, to_addr, colLetters]; rfl
  · simp [Expr.resolve, wb1, table1, sheet1, to_addr, colLetters]; rfl

/-- C4 witness: the index part applied to the concrete fixture (index column
at offset 0, headers excluded). -/
theorem column_index_resolve_spec_w :
    Expr.resolve wb1 0 0 (.index false none true true) =
      some "\x27Sheet1\x27!$A$2:$A$3" := by
  rw [column_index_resolve_spec.2.1 wb1 0 0 none table1 sheet1 0 0 false true true
    rfl rfl]
  simp [to_addr, colLetters, table1]
  rfl

/-- C5: `Range.resolve` uses top-row offset `header_height`-or-0 when the top
label is absent (depending on `include_header`) and the mapped label offset
otherwise; bottom-row offset `height - 1` when the bottom label is absent,
the top-row offset when it is `False`, and the mapped label offset otherwise;
rendering a sheet-qualified top-left:bottom-right pair. -/
theorem range_resolve_spec (wb : Workbook) (row col : Int) (tname : Option String)
    (tb : Table) (ws : Worksheet) (top left : Int) (lc rc : String)
    (lco rco : Int) (otop : Option String) (obot : BottomRow)
    (inc cf rf : Bool) (topOff botOff : Int)
    (h1 : wb.get_table tname = some (tb, ws))
    (h2 : ws.get_table_pos tb.name = some (top, left))
    (h3 : tb.get_column_offset lc = some lco)
    (h4 : tb.get_column_offset rc = some rco)
    (h5 : (match otop with
           | none => some (if inc then 0 else tb.header_height)
           | some l => tb.get_row_offset l) = some topOff)
    (h6 : (match obot with
           | .bnone => some (tb.height - 1)
           | .bfalse => some topOff
           | .blabel l => tb.get_row_offset l) = some botOff) :
    Expr.resolve wb row col (.range lc rc otop obot inc tname cf rf) =
      some ("\x27" ++ ws.name ++ "\x27!" ++
        to_addr none (top + topOff) (left + lco) rf cf ++ ":" ++
        to_addr none (top + botOff) (left + rco) rf cf) := by
  cases otop <;> cases obot <;>
    simp only [Option.some.injEq] at h5 h6 <;>
    first
      | (subst h5; subst h6; simp [Expr.resolve, h1, h2, h3, h4])
      | (subst h5; simp [Expr.resolve, h1, h2, h3, h4, h6])
      | (subst h6; simp [Expr.resolve, h1, h2, h3, h4, h5])
      | simp [Expr.resolve, h1, h2, h3, h4, h5, h6]

/-- C5 witness: a full-height single-column range with headers over the
concrete fixture. -/
theorem range_resolve_spec_w :
    Expr.resolve wb1 0 0 (.range "x" "x" none .bnone true none true true) =
      some "\x27Sheet1\x27!$A$1:$A$3" := by
  rw [range_resolve_spec wb1 0 0 none table1 sheet1 0 0 "x" "x" 0 0 none .bnone
    true true true 0 2 rfl rfl rfl rfl rfl rfl]
  simp [to_addr, colLetters]
  rfl

/-- C6 counterexample: `"(a)(b)"` is not entirely enclosed in a single outer
parenthesis pair (the first `(` closes before the end), yet the stripping
still removes the outer characters, yielding the unbalanced `"a)(b"`. -/
theorem pstrip_unmatched_counterexample :
    enclosedInSinglePair "(a)(b)" = false ∧
    pstrip "(a)(b)" = "a)(b" ∧
    "a)(b" ≠ "(a)(b)" := ⟨rfl, rfl, by decide⟩

/-- C6 amended: for newline-free strings the stripping removes exactly the
first and last characters whenever the string starts with `(` and ends with
`)` -- whether or not those parentheses match each other -- and leaves every
other string unchanged (not starting with `(`, or starting with `(` but not
ending with `)`); only one layer is removed, e.g. `"((x))"` becomes
`"(x)"`. -/
theorem pstrip_amended :
    (∀ m : String, m.data.contains '\n' = false →
      pstrip ("(" ++ m ++ ")") = m) ∧
    (∀ s : String, s.data.head? ≠ some '(' → pstrip s = s) ∧
    (∀ s : String, s.data.contains '\n' = false →
      s.data.getLast? ≠ some ')' → pstrip s = s) ∧
    pstrip "((x))" = "(x)" := by
  refine ⟨?_, ?_, ?_, rfl⟩
  · intro m hm
    have hd : ("(" ++ m ++ ")").data = '(' :: (m.data ++ [')']) := by
      simp [String.data_append]
    have hm2 : ¬ '\n' ∈ m.data := by simpa using hm
    unfold pstrip
    rw [hd]
    simp [List.getLast?_concat, List.dropLast_concat, hm2]
  · intro s hs
    unfold pstrip
    rw [if_neg hs]
  · intro s hnl hlast
    by_cases hh : s.data.head? = some '('
    · have h1 : ¬ s.data.tail.getLast? = some ')' := by
        intro hc
        apply hlast
        cases hd : s.data with
        | nil => rw [hd] at hc; simp at hc
        | cons c cs =>
          rw [hd, List.tail_cons] at hc
          cases hcs : cs with
          | nil => rw [hcs] at hc; simp at hc
          | cons b bs =>
            rw [List.getLast?_cons_cons]
            rw [hcs] at hc
            exact hc
      have h2 : ¬ s.data.tail.getLast? = some '\n' := by
        intro hc
        have hmem : '\n' ∈ s.data :=
          List.mem_of_mem_tail (List.mem_of_getLast?_eq_some hc)
        exact absurd hmem (by simpa using hnl)
      unfold pstrip
      rw [if_pos hh]
      simp [h1, h2]
    · unfold pstrip
      rw [if_neg hh]

/-- C6 witness: the spec's own example, `"(A1+B1)"` stripped to `"A1+B1"`. -/
theorem pstrip_amended_w : pstrip ("(" ++ "A1+B1" ++ ")") = "A1+B1" :=
  pstrip_amended.1 "A1+B1" (by decide)

/-- C7: wrapping in `ArrayExpression` is idempotent: a double wrap produces
the same formula text as a single wrap, and the result is wrapped in exactly
one layer of braces (its body starts and ends with non-brace characters).
The embedded `get_formula` is a pure function, so repeated calls on the same
expression trivially return the same result. -/
theorem array_expression_idempotent (wb : Workbook) (row col : Int) (e : Expr)
    (s : String)
    (h : Expr.get_formula wb row col (.arrayExpression e) = some s) :
    Expr.get_formula wb row col (.arrayExpression (.arrayExpression e)) = some s ∧
    ∃ body : String, s = "\x7b" ++ body ++ "\x7d" ∧
      (∀ c, body.data.head? = some c → isBrace c = false) ∧
      (∀ c, body.data.getLast? = some c → isBrace c = false) := by
  simp only [Expr.get_formula, Option.map_eq_some'] at h
  obtain ⟨t, ht, hs⟩ := h
  subst hs
  constructor
  · simp only [Expr.get_formula, ht, Option.map_some', Option.some.injEq]
    rw [stripBraces_wrap, stripBraces_idem]
  · exact ⟨stripBraces t, rfl, fun c hc => stripBracesL_head t.data c hc,
      fun c hc => stripBracesL_getLast t.data c hc⟩

/-- C7 witness: double-wrapping the concrete column formula yields the same
once-braced text as a single wrap. -/
theorem array_expression_idempotent_w :
    Expr.get_formula wb1 0 0 (.arrayExpression (.arrayExpression
      (.column "x" false none true true))) =
      some "\x7b=\x27Sheet1\x27!$A$2:$A$3\x7d" := by
  have h : Expr.get_formula wb1 0 0
      (.arrayExpression (.column "x" false none true true)) =
      some "\x7b=\x27Sheet1\x27!$A$2:$A$3\x7d" := by
    simp [Expr.get_formula, Expr.resolve, wb1, table1, sheet1, to_addr,
      colLetters, pstrip, stripBraces, stripBracesL, isBrace]
    rfl
  exact (array_expression_idempotent wb1 0 0 _ _ h).1

theorem data_empty_string : ("" : String).data = [] := rfl

theorem decodeCol_append_singleton (x : String) (c : Char) :
    decodeCol (x ++ String.singleton c) = 26 * decodeCol x + (c.toNat - 64) := by
  unfold decodeCol
  rw [String.data_append, List.foldl_append]
  rfl

theorem char_ofNat_toNat_in_range :
    ∀ r : Nat, r < 26 → (Char.ofNat (65 + r)).toNat = 65 + r := by decide

theorem decodeCol_colLetters : ∀ n : Nat, 0 < n → decodeCol (colLetters n) = n := by
  intro n
  induction n using Nat.strong_induction_on with
  | _ n ih =>
    intro hn
    cases n with
    | zero => exact absurd hn (by norm_num)
    | succ m =>
      rw [colLetters, decodeCol_append_singleton,
        char_ofNat_toNat_in_range (m % 26) (Nat.mod_lt _ (by norm_num))]
      by_cases h0 : m / 26 = 0
      · rw [h0]
        have hm : m < 26 := by
          have := Nat.div_add_mod m 26
          have hlt : m % 26 < 26 := Nat.mod_lt _ (by norm_num)
          omega
        have : decodeCol (colLetters 0) = 0 := by rw [colLetters]; rfl
        rw [this, Nat.mod_eq_of_lt hm]
        omega
      · have h1 : 0 < m / 26 := Nat.pos_of_ne_zero h0
        have h2 : m / 26 < m + 1 := Nat.lt_succ_of_le (Nat.div_le_self m 26)
        rw [ih (m / 26) h2 h1]
        have h3 := Nat.div_add_mod m 26
        omega

/-- C8: for every zero-based row and column, `_to_addr` with no fixing and no
sheet renders the bijective base-26 column letters followed by the 1-based
row number, and decoding those letters (A=1, no zero digit) gives back the
encoded column index -- the round-trip identity. -/
theorem to_addr_column_roundtrip (row col : Nat) :
    to_addr none (row : Int) (col : Int) false false =
      colLetters (col + 1) ++ toString ((row : Int) + 1) ∧
    decodeCol (colLetters (col + 1)) = col + 1 := by
  constructor
  · have hc : ((col : Int) + 1).toNat = col + 1 := by omega
    unfold to_addr
    rw [hc]
    apply String.ext
    simp [String.data_append, data_empty_string]
  · exact decodeCol_colLetters (col + 1) (Nat.succ_pos col)

theorem resolveArgs_spec (wb : Workbook) (row col : Int) :
    ∀ (args : List FArg) (ss : List String),
      List.Forall₂ (argSpec wb row col) args ss →
      resolveArgs wb row col args = some ss := by
  intro args
  induction args with
  | nil =>
    intro ss h
    cases h
    simp [resolveArgs]
  | cons a as ih =>
    intro ss h
    cases h with
    | cons ha htail =>
      rename_i s ss'
      have h1 : resolveArg wb row col a = some s := by
        cases a with
        | noneA => rw [show s = "" from ha]; simp [resolveArg]
        | exprA e => simpa [resolveArg, argSpec] using ha
        | rawA v => rw [show s = pstrip (constResolve v) from ha]; simp [resolveArg]
      simp [resolveArgs, h1, ih ss' htail]

/-- C9: `Formula.resolve` renders `name(s1,...,sk)` where each slot is the
empty string for a `None` argument and otherwise the argument's resolved
text with one outer parenthesis layer stripped, joined with commas; e.g.
`Formula("SUM", None, Column("x"))` renders with an empty first slot. -/
theorem formula_resolve_spec :
    (∀ (wb : Workbook) (row col : Int) (nm : String) (args : List FArg)
        (ss : List String), List.Forall₂ (argSpec wb row col) args ss →
      Expr.resolve wb row col (.formula nm args) =
        some (nm ++ "(" ++ String.intercalate "," ss ++ ")")) ∧
    Expr.resolve wb1 0 0
        (.formula "SUM" [.noneA, .exprA (.column "x" false none true true)]) =
      some "SUM(,\x27Sheet1\x27!$A$2:$A$3)" := by
  constructor
  · intro wb row col nm args ss hf
    simp [Expr.resolve, resolveArgs_spec wb row col args ss hf]
  · simp [Expr.resolve, resolveArgs, resolveArg, wb1, table1, sheet1, to_addr,
      colLetters, pstrip]
    rfl

/-- C9 witness: a one-argument function call rendered through the general
statement. -/
theorem formula_resolve_spec_w :
    Expr.resolve wb1 0 0 (.formula "IF" [.exprA (.constExpr (.int 1))]) =
      some ("IF" ++ "(" ++ String.intercalate "," ["1"] ++ ")") := by
  apply formula_resolve_spec.1
  refine List.Forall₂.cons ?_ List.Forall₂.nil
  show (Expr.resolve wb1 0 0 (.constExpr (.int 1))).map pstrip = some "1"
  simp only [Expr.resolve, Option.map_some']
  rfl

theorem resolveArgs_middle_congr (wb : Workbook) (row col : Int) (a1 a2 : FArg)
    (h : resolveArg wb row col a1 = resolveArg wb row col a2) :
    ∀ pre post : List FArg,
      resolveArgs wb row col (pre ++ a1 :: post) =
        resolveArgs wb row col (pre ++ a2 :: post) := by
  intro pre
  induction pre with
  | nil => intro post; simp [resolveArgs, h]
  | cons x xs ih => intro post; simp [resolveArgs, ih post]

/-- C10: a raw non-`None`, non-expression `Formula` argument is coerced by
`_make_expr` to a `ConstExpr`, so it renders exactly as if the caller had
passed `ConstExpr(argument)`: strings quoted, booleans as `TRUE`/`FALSE`,
numbers in plain numeric form. -/
theorem formula_raw_arg_coercion :
    (∀ (wb : Workbook) (row col : Int) (v : Val),
      resolveArg wb row col (.rawA v) =
        resolveArg wb row col (.exprA (.constExpr v))) ∧
    (∀ (wb : Workbook) (row col : Int) (nm : String) (pre post : List FArg)
        (v : Val),
      Expr.resolve wb row col (.formula nm (pre ++ .rawA v :: post)) =
        Expr.resolve wb row col (.formula nm (pre ++ .exprA (.constExpr v) :: post))) ∧
    (∀ (wb : Workbook) (row col : Int) (s : String),
      Expr.resolve wb row col (.constExpr (.str s)) =
        some ("\x22" ++ s ++ "\x22")) ∧
    (∀ (wb : Workbook) (row col : Int),
      Expr.resolve wb row col (.constExpr (.bool true)) = some "TRUE" ∧
      Expr.resolve wb row col (.constExpr (.bool false)) = some "FALSE") ∧
    (∀ (wb : Workbook) (row col : Int) (n : Int),
      Expr.resolve wb row col (.constExpr (.int n)) = some (toString n)) := by
  refine ⟨?_, ?_, ?_, ?_, ?_⟩
  · intro wb row col v
    simp [resolveArg, Expr.resolve]
  · intro wb row col nm pre post v
    have h : resolveArg wb row col (.rawA v) =
        resolveArg wb row col (.exprA (.constExpr v)) := by
      simp [resolveArg, Expr.resolve]
    simp only [Expr.resolve]
    rw [resolveArgs_middle_congr wb row col _ _ h pre post]
  · intro wb row col s
    simp [Expr.resolve, constResolve]
  · intro wb row col
    constructor <;> simp [Expr.resolve, constResolve]
  · intro wb row col n
    simp [Expr.resolve, constResolve]

/-- C10 witness: a raw integer argument behaves exactly like the
corresponding `ConstExpr` argument. -/
theorem formula_raw_arg_coercion_w :
    Expr.resolve wb1 0 0 (.formula "SUM" [FArg.rawA (.int 7)]) =
      Expr.resolve wb1 0 0 (.formula "SUM" [FArg.exprA (.constExpr (.int 7))]) :=
  formula_raw_arg_coercion.2.1 wb1 0 0 "SUM" [] [] (.int 7)

end Xltable
